import Mathlib

/-!
Verification of the motion-simulation engine of the doing-physics repository.

Two engine variants are embedded:

* the variable-gravity podium variant (`script.js`): a ball launched
  vertically from a podium of height `initialHeight`, with height-dependent
  gravity `g(h) = 7 / (h + 5)`, integrated numerically with fixed 1 ms
  sub-steps.  All of its arithmetic is rational, so it is embedded over `ℚ`
  (idealising the JavaScript binary64 floats by exact rationals, as usual
  for a shallow embedding; in particular the literals 0.001, 0.01, 0.1 are
  taken exactly).

* the angled constant-gravity ground-launch variant (`part_000`): a
  projectile launched from the ground at an angle, with closed-form
  kinematics under `g = 7`.  It uses `sin`, `cos`, `sqrt` and `π`, so it is
  embedded over `ℝ`.

JavaScript `for (let t = 0; t < T; t += step)` loops are embedded as
structural recursions whose fuel is the exact iteration count of the loop
(the loop variable is an arithmetic progression, exact over `ℚ`, so the
count is `⌈T/step⌉` and the loop body receives the grid point `k·step`).
-/

namespace DoingPhysics

/-! ### Variable-gravity podium variant (`script.js`), over `ℚ` -/

/-- Parameters read by the podium engine: `this.initialHeight` and
`this.initialVelocity` (`this.gravity = 7` and the gravity law
`g(h) = 7/(h+5)` are hard-coded, `this.mass` does not enter the motion). -/
structure PodParams where
  initialHeight : ℚ
  initialVelocity : ℚ
  deriving DecidableEq, Repr

/-- One-millisecond sub-step of `calculatePosition` (`script.js` 274). -/
def dtP : ℚ := 1 / 1000

/-- The integration loop body of `calculatePosition` (`script.js` 278-294),
run for `n` remaining sub-steps: compute `g = 7/(h+5)` at the current
height, update the velocity first (`v -= g*dt`), then the height
(`h += v*dt`); if the new height is `≤ 0`, clamp height and velocity to `0`
and break out of the loop. -/
def integrate : Nat → ℚ → ℚ → ℚ × ℚ
  | 0, h, v => (h, v)
  | n + 1, h, v =>
    let g : ℚ := 7 / (h + 5)
    let v2 : ℚ := v - g * dtP
    let h2 : ℚ := h + v2 * dtP
    if h2 ≤ 0 then (0, 0) else integrate n h2 v2

/-- Number of iterations of the loop `for (let t = 0; t < time; t += 0.001)`:
the body runs for the grid points `k·0.001 < time`, i.e. `⌈time·1000⌉`
times (and `0` times for `time ≤ 0`). -/
def numSteps (time : ℚ) : Nat := (⌈time * 1000⌉).toNat

/-- `calculatePosition` of the podium variant (`script.js` 262-300):
returns the `(height, velocity)` sample at the requested elapsed time,
recomputed from `t = 0` on every call; at `time === 0` it returns the
initial conditions directly, otherwise it integrates and clamps the
returned height at the ground with `Math.max(0, ·)`. -/
def calculatePosition (p : PodParams) (time : ℚ) : ℚ × ℚ :=
  if time = 0 then (p.initialHeight, p.initialVelocity)
  else
    let r := integrate (numSteps time) p.initialHeight p.initialVelocity
    (max 0 r.1, r.2)

/-- Height component of a podium sample. -/
def heightAtP (p : PodParams) (t : ℚ) : ℚ := (calculatePosition p t).1

/-- Velocity component of a podium sample. -/
def velocityAtP (p : PodParams) (t : ℚ) : ℚ := (calculatePosition p t).2

/-- The landing test of the flight-time loop of `calculateMaxHeight`
(`script.js` 145) at grid index `k` (`t = k·0.1`):
`t > 0.1 && position.height <= this.initialHeight + 0.01`. -/
def landCondP (p : PodParams) (k : Nat) : Prop :=
  (1 / 10 : ℚ) < (k : ℚ) / 10 ∧ heightAtP p ((k : ℚ) / 10) ≤ p.initialHeight + 1 / 100

instance (p : PodParams) (k : Nat) : Decidable (landCondP p k) :=
  inferInstanceAs (Decidable (_ ∧ _))

/-- The flight-time search loop of `calculateMaxHeight` (`script.js`
143-149): `for (let t = 0; t < 200; t += 0.1)`, returning the first grid
point satisfying the landing test, and `0` when the loop runs out (the
JavaScript `this.flightTime` keeps its initialisation `0`).  The fuel
argument is the remaining iteration budget; the loop itself is bounded by
the `t < 200` guard, i.e. by `2000` iterations. -/
def landingSearch (p : PodParams) : Nat → Nat → ℚ
  | 0, _ => 0
  | f + 1, k =>
    if (k : ℚ) / 10 < 200 then
      if landCondP p k then (k : ℚ) / 10 else landingSearch p f (k + 1)
    else 0

/-- `this.flightTime` as computed by `calculateMaxHeight` (`script.js`
142-153): the landing search result, with the fallback `100` when the
search found nothing. -/
def flightTimeOf (p : PodParams) : ℚ :=
  let r := landingSearch p 2000 0
  if r = 0 then 100 else r

/-- The peak test of the max-height loop of `calculateMaxHeight`
(`script.js` 129) at grid index `k` (`t = k·0.01`):
`position.velocity <= 0 && t > 0`. -/
def peakCondP (p : PodParams) (k : Nat) : Prop :=
  velocityAtP p ((k : ℚ) / 100) ≤ 0 ∧ (0 : ℚ) < (k : ℚ) / 100

instance (p : PodParams) (k : Nat) : Decidable (peakCondP p k) :=
  inferInstanceAs (Decidable (_ ∧ _))

/-- The max-height search loop of `calculateMaxHeight` (`script.js`
124-137): `for (let t = 0; t < 100; t += 0.01)`, accumulating
`maxHeight = Math.max(maxHeight, position.height)` and breaking once the
velocity sample is `≤ 0` at `t > 0` (recording that sample first). -/
def peakSearch (p : PodParams) : Nat → Nat → ℚ → ℚ
  | 0, _, acc => acc
  | f + 1, k, acc =>
    if (k : ℚ) / 100 < 100 then
      let m := max acc (heightAtP p ((k : ℚ) / 100))
      if peakCondP p k then m else peakSearch p f (k + 1) m
    else acc

/-- `this.maxHeight` as computed by `calculateMaxHeight` (`script.js`
116-139), starting the accumulator at `this.initialHeight`. -/
def maxHeightOf (p : PodParams) : ℚ :=
  peakSearch p 10000 0 p.initialHeight

/-- The mutable state of the podium simulator object (`script.js`): the
run flag, the wall-clock start epoch (milliseconds), the current sample,
the flight envelope, and the parameters.  `animationId` records whether a
next animation frame is scheduled. -/
structure PodState where
  isRunning : Bool
  animationId : Bool
  startTime : ℚ
  currentTime : ℚ
  currentHeight : ℚ
  currentVelocity : ℚ
  flightTime : ℚ
  maxHeight : ℚ
  initialHeight : ℚ
  initialVelocity : ℚ
  deriving DecidableEq, Repr

/-- The parameter fields of a podium state. -/
def podParamsOf (s : PodState) : PodParams :=
  ⟨s.initialHeight, s.initialVelocity⟩

/-- `endSimulation` (`script.js` 350-365): clear the run flag, cancel the
scheduled frame, and rest the ball at the ground:
`currentHeight = 0`, `currentVelocity = 0`. -/
def endSimulation (s : PodState) : PodState :=
  { s with isRunning := false, animationId := false,
           currentHeight := 0, currentVelocity := 0 }

/-- One `animate` tick of the podium variant (`script.js` 318-348) at
wall-clock instant `now` (milliseconds): if not running, do nothing;
otherwise sample `calculatePosition` at the elapsed seconds
`(now - startTime)/1000`, store the sample, and end the flight when the
elapsed time reached `flightTime` or the ball returned to the podium
(`currentTime > 0.001 && currentHeight <= initialHeight + 0.01 &&
currentVelocity <= 0`), first snapping the height to `initialHeight`;
otherwise schedule the next frame. -/
def animate (s : PodState) (now : ℚ) : PodState :=
  if s.isRunning then
    let ct : ℚ := (now - s.startTime) / 1000
    let pos := calculatePosition (podParamsOf s) ct
    let s1 : PodState :=
      { s with currentTime := ct, currentHeight := pos.1, currentVelocity := pos.2 }
    if s.flightTime ≤ ct ∨
        (1 / 1000 < ct ∧ pos.1 ≤ s.initialHeight + 1 / 100 ∧ pos.2 ≤ 0) then
      endSimulation { s1 with currentHeight := s.initialHeight }
    else { s1 with animationId := true }
  else s

/-- `startSimulation` (`script.js` 302-316): a no-op while already
running (the returned flag records whether a run was started, i.e. whether
the immediate `animate` call was made); otherwise set the run flag, record
the start epoch, reset the elapsed time and recompute the flight
envelope. -/
def startSimulation (s : PodState) (now : ℚ) : PodState × Bool :=
  if s.isRunning then (s, false)
  else
    ({ s with isRunning := true, startTime := now, currentTime := 0,
              flightTime := flightTimeOf (podParamsOf s),
              maxHeight := maxHeightOf (podParamsOf s) }, true)

/-- `resetSimulation` (`script.js` 367-383): end the simulation, then
reset the elapsed time and rest the ball on the podium at
`initialHeight`. -/
def resetSimulation (s : PodState) : PodState :=
  let s1 := endSimulation s
  { s1 with currentTime := 0, currentHeight := s.initialHeight, currentVelocity := 0 }

/-! ### The semi-implicit Euler scheme as the specification words it

The following three definitions follow the words of the specification (and
of claim C1), to be compared with `calculatePosition` above: a 1 ms
sub-step first updates the velocity by subtracting `g(h) = 7/(h+5)`
evaluated at the current height times `dt`, then updates the height using
the new velocity; the first sub-step at which the height becomes
non-positive clamps height and velocity to `0` and stops the integration
(the stopped configuration is the `Sum.inr` state); the returned height is
clamped at `0`. -/

/-- One semi-implicit Euler sub-step, per the specification words:
velocity first, with gravity at the current height, then height with the
new velocity. -/
def eulerSpecStep (s : ℚ × ℚ) : ℚ × ℚ :=
  let v2 : ℚ := s.2 - (7 / (s.1 + 5)) * (1 / 1000)
  (s.1 + v2 * (1 / 1000), v2)

/-- Advance the integration by one sub-step, stopping (forever) at the
first sub-step whose height is non-positive. -/
def eulerSpecAdvance : (ℚ × ℚ) ⊕ Unit → (ℚ × ℚ) ⊕ Unit
  | .inr u => .inr u
  | .inl s =>
    let s2 := eulerSpecStep s
    if s2.1 ≤ 0 then .inr () else .inl s2

/-- The sample the specification describes: iterate the sub-step once per
started millisecond of the requested elapsed time, read off the result
(`(0, 0)` if the integration stopped at the ground), and never return a
negative height. -/
def eulerSpecSample (p : PodParams) (time : ℚ) : ℚ × ℚ :=
  match eulerSpecAdvance^[numSteps time] (.inl (p.initialHeight, p.initialVelocity)) with
  | .inl s => (max 0 s.1, s.2)
  | .inr _ => (0, 0)

/-- Read the result of the iterated sub-step: the running configuration,
or `(0, 0)` if the integration stopped at the ground. -/
def eulerRead : (ℚ × ℚ) ⊕ Unit → ℚ × ℚ :=
  Sum.elim id fun _ => (0, 0)

/-! ### Angled constant-gravity ground-launch variant (`part_000`), over `ℝ` -/

/-- Parameters read by the ground-launch engine: `this.initialVelocity`,
`this.launchAngle` (degrees) and `this.initialHeight` (`0` in this
variant, but the code keeps the general elevated-launch branch). -/
structure GParams where
  initialVelocity : ℝ
  launchAngle : ℝ
  initialHeight : ℝ

/-- Degree-to-radian conversion `angle * Math.PI / 180`. -/
noncomputable def degToRad (a : ℝ) : ℝ := a * Real.pi / 180

/-- Vertical component `v0y = v0 * Math.sin(angleRad)` of the launch
velocity. -/
noncomputable def v0yOf (p : GParams) : ℝ :=
  p.initialVelocity * Real.sin (degToRad p.launchAngle)

/-- Horizontal component `v0x = v0 * Math.cos(angleRad)` of the launch
velocity. -/
noncomputable def v0xOf (p : GParams) : ℝ :=
  p.initialVelocity * Real.cos (degToRad p.launchAngle)

/-- A motion sample of the ground-launch variant. -/
structure GSample where
  x : ℝ
  height : ℝ
  velocityX : ℝ
  velocityY : ℝ

/-- `calculatePosition` of the ground-launch variant (`part_000` 357-382):
closed-form constant-gravity kinematics with `g = 7`, height clamped at
the ground with `Math.max(0, ·)`. -/
noncomputable def calculatePositionG (p : GParams) (t : ℝ) : GSample :=
  { x := v0xOf p * t
    height := max 0 (p.initialHeight + v0yOf p * t - 1 / 2 * 7 * t ^ 2)
    velocityX := v0xOf p
    velocityY := v0yOf p - 7 * t }

/-- `calculateMaxHeight` of the ground-launch variant (`part_000`
137-170), returning `(maxHeight, flightTime)`: the closed-form peak
`h0 + v0y²/(2g)`; the flight time `2|v0y|/g` for a ground launch (`0.1`
when `|v0y| ≤ 0.001`), or the larger quadratic root for an elevated
launch (`0.1` when the discriminant is negative); finally
`flightTime = Math.max(flightTime, 0.1)`. -/
noncomputable def calculateMaxHeightG (p : GParams) : ℝ × ℝ :=
  let v0y := v0yOf p
  let maxH := p.initialHeight + v0y ^ 2 / (2 * 7)
  let ft :=
    if p.initialHeight = 0 then
      if 1 / 1000 < |v0y| then 2 * |v0y| / 7 else 1 / 10
    else
      let a : ℝ := -(1 / 2) * 7
      let b := v0y
      let c := p.initialHeight
      let disc := b ^ 2 - 4 * a * c
      if 0 ≤ disc then
        max ((-b + Real.sqrt disc) / (2 * a)) ((-b - Real.sqrt disc) / (2 * a))
      else 1 / 10
  (maxH, max ft (1 / 10))

/-- The larger root `(v0y + √(v0y² + 14·h0)) / 7` of the landing
quadratic `h0 + v0y·t - ½·7·t² = 0`, as the specification words the
elevated-launch flight duration. -/
noncomputable def largestRoot (v0y h0 : ℝ) : ℝ :=
  (v0y + Real.sqrt (v0y ^ 2 + 14 * h0)) / 7

/-- The angle-slider input handler of `part_000` (94-118): requests
strictly inside the disallowed gap `(25°, 65°)` snap to `25` (when
`≤ 45`) or `65`; requests above `75` are capped at `75`; everything else
is accepted as requested. -/
def setAngle (a : ℚ) : ℚ :=
  if 25 < a ∧ a < 65 then (if a ≤ 45 then 25 else 65)
  else if 75 < a then 75
  else a

/-- The allowed angle set of the angled variant: `[0°, 25°] ∪ [65°, 75°]`. -/
def allowedAngle (a : ℚ) : Prop :=
  (0 ≤ a ∧ a ≤ 25) ∨ (65 ≤ a ∧ a ≤ 75)

instance (a : ℚ) : Decidable (allowedAngle a) :=
  inferInstanceAs (Decidable (_ ∨ _))

/-- The mutable state of the ground-launch simulator object
(`part_000`). -/
structure GState where
  isRunning : Bool
  animationId : Bool
  startTime : ℝ
  currentTime : ℝ
  currentX : ℝ
  currentHeight : ℝ
  currentVelocityX : ℝ
  currentVelocityY : ℝ
  flightTime : ℝ
  maxHeight : ℝ
  initialVelocity : ℝ
  launchAngle : ℝ
  initialHeight : ℝ

/-- The parameter fields of a ground-launch state. -/
def gParamsOf (s : GState) : GParams :=
  ⟨s.initialVelocity, s.launchAngle, s.initialHeight⟩

/-- `endSimulation` of the ground-launch variant (`part_000` 438-454):
clear the run flag, cancel the scheduled frame, and rest the ball at the
ground with zero velocity. -/
def endSimulationG (s : GState) : GState :=
  { s with isRunning := false, animationId := false,
           currentHeight := 0, currentVelocityX := 0, currentVelocityY := 0 }

/-- One `animate` tick of the ground-launch variant (`part_000` 404-436)
at wall-clock instant `now` (milliseconds): sample the kinematics at the
elapsed seconds, store the sample, and end the flight when the elapsed
time reached `flightTime` or the ball hit the ground
(`currentTime > 0.001 && currentHeight <= 0.01`), first snapping the
height to `0`; otherwise schedule the next frame. -/
noncomputable def animateG (s : GState) (now : ℝ) : GState :=
  if s.isRunning then
    let ct : ℝ := (now - s.startTime) / 1000
    let pos := calculatePositionG (gParamsOf s) ct
    let s1 : GState :=
      { s with currentTime := ct, currentX := pos.x, currentHeight := pos.height,
               currentVelocityX := pos.velocityX, currentVelocityY := pos.velocityY }
    if s.flightTime ≤ ct ∨ (1 / 1000 < ct ∧ pos.height ≤ 1 / 100) then
      endSimulationG { s1 with currentHeight := 0 }
    else { s1 with animationId := true }
  else s

/-- `startSimulation` of the ground-launch variant (`part_000` 384-402):
a no-op while already running; otherwise set the run flag, record the
start epoch, reset the elapsed time and position, and recompute the
flight envelope. -/
noncomputable def startSimulationG (s : GState) (now : ℝ) : GState × Bool :=
  if s.isRunning then (s, false)
  else
    ({ s with isRunning := true, startTime := now, currentTime := 0, currentX := 0,
              flightTime := (calculateMaxHeightG (gParamsOf s)).2,
              maxHeight := (calculateMaxHeightG (gParamsOf s)).1 }, true)

/-- `resetSimulation` of the ground-launch variant (`part_000` 456-474). -/
def resetSimulationG (s : GState) : GState :=
  let s1 := endSimulationG s
  { s1 with currentTime := 0, currentHeight := s.initialHeight, currentX := 0,
            currentVelocityX := 0, currentVelocityY := 0 }

/-! ## Lemmas -/

/-- A stopped configuration stays stopped. -/
lemma eulerSpecAdvance_inr (n : Nat) (u : Unit) :
    eulerSpecAdvance^[n] (Sum.inr u) = Sum.inr u := by
  induction n with
  | zero => rfl
  | succ n ih => rw [Function.iterate_succ_apply]; exact ih

/-- The integration loop of `calculatePosition` computes exactly the
iterated specification sub-step. -/
lemma integrate_eq_euler (n : Nat) (h v : ℚ) :
    integrate n h v = eulerRead (eulerSpecAdvance^[n] (Sum.inl (h, v))) := by
  induction n generalizing h v with
  | zero => rfl
  | succ n ih =>
    rw [Function.iterate_succ_apply]
    simp only [integrate, eulerSpecAdvance, eulerSpecStep, dtP]
    split_ifs with hc
    · rw [eulerSpecAdvance_inr]; rfl
    · exact ih _ _

/-- C1: in the variable-gravity variant, `sample(parameters, elapsedTime)`
computes the motion by semi-implicit Euler integration with a fixed 1 ms
sub-step, restarted from `t = 0` on every call: each sub-step first updates
the velocity by subtracting `g(h) = 7/(h+5)` at the current height times
`dt`, then updates the height using the new velocity; the first sub-step at
which the height becomes non-positive clamps height and velocity to `0` and
stops the integration; and the returned height is never negative (for the
valid parameter range `initialHeight ≥ 0`; at `t = 0` the raw initial
height is returned). -/
theorem C1_variable_gravity_integrator :
    (∀ (p : PodParams) (t : ℚ), 0 ≤ p.initialHeight → 0 ≤ (calculatePosition p t).1) ∧
    (∀ (p : PodParams) (t : ℚ), t ≠ 0 → calculatePosition p t = eulerSpecSample p t) := by
  constructor
  · intro p t h0
    unfold calculatePosition
    split_ifs with ht
    · exact h0
    · exact le_max_left 0 _
  · intro p t ht
    unfold calculatePosition eulerSpecSample
    rw [if_neg ht, integrate_eq_euler]
    rcases hiter : eulerSpecAdvance^[numSteps t]
        (Sum.inl (p.initialHeight, p.initialVelocity)) with s | u
    · simp [eulerRead]
    · simp [eulerRead]

/-- Witness for C1 at concrete inputs. -/
theorem C1_variable_gravity_integrator_wit :
    0 ≤ (calculatePosition ⟨5/2, 5/2⟩ (1/500)).1 ∧
    calculatePosition ⟨5/2, 5/2⟩ (1/500) = eulerSpecSample ⟨5/2, 5/2⟩ (1/500) :=
  ⟨C1_variable_gravity_integrator.1 ⟨5/2, 5/2⟩ (1/500) (by norm_num),
   C1_variable_gravity_integrator.2 ⟨5/2, 5/2⟩ (1/500) (by norm_num)⟩

/-- A running tick always stores the computed elapsed time, whether or
not the flight ends on it. -/
lemma animate_currentTime (s : PodState) (now : ℚ) (hs : s.isRunning = true) :
    (animate s now).currentTime = (now - s.startTime) / 1000 := by
  simp only [animate, endSimulation, hs, if_true]
  split_ifs <;> rfl

/-- A tick never changes the recorded start epoch. -/
lemma animate_startTime (s : PodState) (now : ℚ) :
    (animate s now).startTime = s.startTime := by
  simp only [animate, endSimulation]
  split_ifs <;> rfl

/-- C8: for every valid parameter set, sampling at elapsed time `0`
returns exactly the initial conditions: the podium variant returns the
pair `(initialHeight, initialVelocity)`, and the angled variant returns
height `initialHeight` (given the valid range `initialHeight ≥ 0`) and
vertical velocity `initialSpeed · sin(launchAngle)`. -/
theorem C8_sample_at_zero :
    (∀ p : PodParams, calculatePosition p 0 = (p.initialHeight, p.initialVelocity)) ∧
    (∀ p : GParams, 0 ≤ p.initialHeight →
      (calculatePositionG p 0).height = p.initialHeight ∧
      (calculatePositionG p 0).velocityY =
        p.initialVelocity * Real.sin (degToRad p.launchAngle)) := by
  constructor
  · intro p
    simp [calculatePosition]
  · intro p hp
    constructor
    · simp [calculatePositionG, max_eq_right hp]
    · simp [calculatePositionG, v0yOf]

/-- Witness for C8 at concrete inputs. -/
theorem C8_sample_at_zero_wit :
    calculatePosition ⟨5/2, 5/2⟩ 0 = (5/2, 5/2) ∧
    (calculatePositionG ⟨5/2, 25, 0⟩ 0).height = 0 ∧
    (calculatePositionG ⟨5/2, 25, 0⟩ 0).velocityY = (5/2 : ℝ) * Real.sin (degToRad 25) :=
  ⟨C8_sample_at_zero.1 ⟨5/2, 5/2⟩, C8_sample_at_zero.2 ⟨5/2, 25, 0⟩ le_rfl⟩

/-- C7: calling `start()` while the clock is already Running leaves the
entire simulation state unchanged in both variants (no field modified, no
start epoch re-recorded, no elapsed-time reset, no additional tick
scheduled — the returned flag is `false`); and elapsed time strictly
increases across consecutive ticks even after a re-entrant `start()`
(as long as the first tick did not end the flight). -/
theorem C7_start_reentrant :
    (∀ (s : PodState) (now : ℚ), s.isRunning = true → startSimulation s now = (s, false)) ∧
    (∀ (s : GState) (now : ℝ), s.isRunning = true → startSimulationG s now = (s, false)) ∧
    (∀ (s : PodState) (t0 n1 n2 : ℚ), s.isRunning = true → n1 < n2 →
      (animate (startSimulation s t0).1 n1).isRunning = true →
      (animate (startSimulation s t0).1 n1).currentTime <
        (animate (animate (startSimulation s t0).1 n1) n2).currentTime) := by
  refine ⟨?_, ?_, ?_⟩
  · intro s now hs
    simp [startSimulation, hs]
  · intro s now hs
    simp [startSimulationG, hs]
  · intro s t0 n1 n2 hs hlt hrun
    have hstart : startSimulation s t0 = (s, false) := by simp [startSimulation, hs]
    rw [hstart] at hrun ⊢
    rw [animate_currentTime s n1 hs, animate_currentTime _ n2 hrun, animate_startTime]
    linarith

/-- Witness for C7 at concrete inputs (a running state of each variant;
the third part takes the ticks at 1 ms and 2 ms of wall-clock time). -/
theorem C7_start_reentrant_wit :
    startSimulation ⟨true, false, 0, 0, 5/2, 0, 1/2, 3, 5/2, 5/2⟩ 7 =
      (⟨true, false, 0, 0, 5/2, 0, 1/2, 3, 5/2, 5/2⟩, false) ∧
    startSimulationG ⟨true, false, 0, 0, 0, 0, 0, 0, 1/2, 3, 5/2, 25, 0⟩ 7 =
      (⟨true, false, 0, 0, 0, 0, 0, 0, 1/2, 3, 5/2, 25, 0⟩, false) ∧
    (animate (startSimulation ⟨true, false, 0, 0, 5/2, 0, 1/2, 3, 5/2, 5/2⟩ 0).1 1).currentTime <
      (animate (animate (startSimulation ⟨true, false, 0, 0, 5/2, 0, 1/2, 3, 5/2, 5/2⟩ 0).1 1)
        2).currentTime := by
  refine ⟨C7_start_reentrant.1 _ 7 rfl, C7_start_reentrant.2.1 _ 7 rfl,
    C7_start_reentrant.2.2 _ 0 1 2 rfl (by norm_num) ?_⟩
  have hstart : startSimulation ⟨true, false, 0, 0, 5/2, 0, 1/2, 3, 5/2, 5/2⟩ 0 =
      (⟨true, false, 0, 0, 5/2, 0, 1/2, 3, 5/2, 5/2⟩, false) :=
    C7_start_reentrant.1 _ 0 rfl
  rw [hstart]
  norm_num [animate, calculatePosition, numSteps, show Int.toNat 1 = 1 from rfl,
    show (1 : ℕ) = 0 + 1 from rfl, integrate, dtP, podParamsOf]

/-- C9: in the variable-gravity podium variant, a running simulation never
terminates via the returned-to-start-height condition while the ball is
still ascending: for every tick with elapsed time strictly between the
time tolerance and the computed flight time, sampled height at most
`initialHeight + 0.01`, and sampled velocity strictly positive, the clock
remains Running and schedules the next tick. -/
theorem C9_no_termination_while_ascending :
    ∀ (s : PodState) (now : ℚ), s.isRunning = true →
      1 / 1000 < (now - s.startTime) / 1000 →
      (now - s.startTime) / 1000 < s.flightTime →
      heightAtP (podParamsOf s) ((now - s.startTime) / 1000) ≤ s.initialHeight + 1 / 100 →
      0 < velocityAtP (podParamsOf s) ((now - s.startTime) / 1000) →
      (animate s now).isRunning = true ∧ (animate s now).animationId = true := by
  intro s now hs ht1 ht2 hh hv
  have hcond : ¬(s.flightTime ≤ (now - s.startTime) / 1000 ∨
      (1 / 1000 < (now - s.startTime) / 1000 ∧
        (calculatePosition (podParamsOf s) ((now - s.startTime) / 1000)).1 ≤
          s.initialHeight + 1 / 100 ∧
        (calculatePosition (podParamsOf s) ((now - s.startTime) / 1000)).2 ≤ 0)) := by
    push_neg
    exact ⟨by linarith, fun _ _ => hv⟩
  simp only [animate, hs, if_true]
  rw [if_neg hcond]
  exact ⟨rfl, rfl⟩

/-- Witness for C9: the tick 2 ms after the start of a flight from the
podium defaults (`initialHeight = 2.5`, `initialVelocity = 2.5`), where
the sampled height is still within the `0.01` band above the podium but
the ball is ascending. -/
theorem C9_no_termination_while_ascending_wit :
    (animate ⟨true, false, 0, 0, 5/2, 5/2, 7/10, 3, 5/2, 5/2⟩ 2).isRunning = true ∧
    (animate ⟨true, false, 0, 0, 5/2, 5/2, 7/10, 3, 5/2, 5/2⟩ 2).animationId = true := by
  refine C9_no_termination_while_ascending ⟨true, false, 0, 0, 5/2, 5/2, 7/10, 3, 5/2, 5/2⟩ 2
    rfl (by norm_num) (by norm_num) ?_ ?_
  · norm_num [podParamsOf, heightAtP, calculatePosition, numSteps,
      show Int.toNat 2 = 2 from rfl, show (2 : ℕ) = 1 + 1 from rfl,
      show (1 : ℕ) = 0 + 1 from rfl, integrate, dtP]
  · norm_num [podParamsOf, velocityAtP, calculatePosition, numSteps,
      show Int.toNat 2 = 2 from rfl, show (2 : ℕ) = 1 + 1 from rfl,
      show (1 : ℕ) = 0 + 1 from rfl, integrate, dtP]

/-- C10: in the variable-gravity podium variant, ending a flight always
leaves the engine with `currentHeight = 0` and `currentVelocity = 0`
regardless of `initialHeight` (the terminating tick first snaps the height
to `initialHeight`, but `endSimulation` then overwrites it with `0`),
whereas `resetSimulation` establishes the rest state
`currentHeight = initialHeight`; the two resulting heights differ whenever
`initialHeight ≠ 0`. -/
theorem C10_flight_end_state :
    (∀ (s : PodState) (now : ℚ), s.isRunning = true →
      (s.flightTime ≤ (now - s.startTime) / 1000 ∨
        (1 / 1000 < (now - s.startTime) / 1000 ∧
          heightAtP (podParamsOf s) ((now - s.startTime) / 1000) ≤ s.initialHeight + 1 / 100 ∧
          velocityAtP (podParamsOf s) ((now - s.startTime) / 1000) ≤ 0)) →
      (animate s now).isRunning = false ∧ (animate s now).currentHeight = 0 ∧
        (animate s now).currentVelocity = 0) ∧
    (∀ s : PodState, (resetSimulation s).currentHeight = s.initialHeight ∧
      (resetSimulation s).currentVelocity = 0) ∧
    (∀ (s : PodState) (now : ℚ), s.isRunning = true → s.initialHeight ≠ 0 →
      (s.flightTime ≤ (now - s.startTime) / 1000 ∨
        (1 / 1000 < (now - s.startTime) / 1000 ∧
          heightAtP (podParamsOf s) ((now - s.startTime) / 1000) ≤ s.initialHeight + 1 / 100 ∧
          velocityAtP (podParamsOf s) ((now - s.startTime) / 1000) ≤ 0)) →
      (animate s now).currentHeight ≠ (resetSimulation s).currentHeight) := by
  have hend : ∀ (s : PodState) (now : ℚ), s.isRunning = true →
      (s.flightTime ≤ (now - s.startTime) / 1000 ∨
        (1 / 1000 < (now - s.startTime) / 1000 ∧
          heightAtP (podParamsOf s) ((now - s.startTime) / 1000) ≤ s.initialHeight + 1 / 100 ∧
          velocityAtP (podParamsOf s) ((now - s.startTime) / 1000) ≤ 0)) →
      (animate s now).isRunning = false ∧ (animate s now).currentHeight = 0 ∧
        (animate s now).currentVelocity = 0 := by
    intro s now hs hc
    simp only [heightAtP, velocityAtP] at hc
    simp only [animate, hs, if_true]
    rw [if_pos hc]
    exact ⟨rfl, rfl, rfl⟩
  have hreset : ∀ s : PodState, (resetSimulation s).currentHeight = s.initialHeight ∧
      (resetSimulation s).currentVelocity = 0 := fun s => ⟨rfl, rfl⟩
  refine ⟨hend, hreset, ?_⟩
  intro s now hs hh hc
  rw [(hend s now hs hc).2.1, (hreset s).1]
  exact fun h => hh h.symm

/-- Witness for C10: a running state whose flight time has already
elapsed at the 1 ms tick. -/
theorem C10_flight_end_state_wit :
    ((animate ⟨true, true, 0, 0, 5/2, 5/2, 1/1000, 3, 5/2, 5/2⟩ 1).isRunning = false ∧
      (animate ⟨true, true, 0, 0, 5/2, 5/2, 1/1000, 3, 5/2, 5/2⟩ 1).currentHeight = 0 ∧
      (animate ⟨true, true, 0, 0, 5/2, 5/2, 1/1000, 3, 5/2, 5/2⟩ 1).currentVelocity = 0) ∧
    (animate ⟨true, true, 0, 0, 5/2, 5/2, 1/1000, 3, 5/2, 5/2⟩ 1).currentHeight ≠
      (resetSimulation ⟨true, true, 0, 0, 5/2, 5/2, 1/1000, 3, 5/2, 5/2⟩).currentHeight :=
  ⟨C10_flight_end_state.1 ⟨true, true, 0, 0, 5/2, 5/2, 1/1000, 3, 5/2, 5/2⟩ 1 rfl
      (Or.inl (by norm_num)),
   C10_flight_end_state.2.2 ⟨true, true, 0, 0, 5/2, 5/2, 1/1000, 3, 5/2, 5/2⟩ 1 rfl
      (by norm_num) (Or.inl (by norm_num))⟩

/-- C2 (amended): for every tick while the clock is Running, the
ground-launch variant transitions to Idle exactly when
`elapsed ≥ flightDuration` or (`sampled height ≤ 0.01` and
`elapsed > 0.001`), and on ending clamps the stored height to the ground;
the variable-gravity podium variant transitions to Idle exactly when
`elapsed ≥ flightDuration` or (`sampled height ≤ initialHeight + 0.01`,
`elapsed > 0.001` **and the sampled velocity is ≤ 0**); in every other
case the tick stores the sample and the clock remains Running with the
next tick scheduled. -/
theorem C2_tick_transition_amended :
    (∀ (s : GState) (now : ℝ), s.isRunning = true →
      ((animateG s now).isRunning = false ↔
        (s.flightTime ≤ (now - s.startTime) / 1000 ∨
          (1 / 1000 < (now - s.startTime) / 1000 ∧
            (calculatePositionG (gParamsOf s) ((now - s.startTime) / 1000)).height ≤ 1 / 100)))) ∧
    (∀ (s : GState) (now : ℝ), s.isRunning = true →
      (s.flightTime ≤ (now - s.startTime) / 1000 ∨
        (1 / 1000 < (now - s.startTime) / 1000 ∧
          (calculatePositionG (gParamsOf s) ((now - s.startTime) / 1000)).height ≤ 1 / 100)) →
      (animateG s now).currentHeight = 0) ∧
    (∀ (s : PodState) (now : ℚ), s.isRunning = true →
      ((animate s now).isRunning = false ↔
        (s.flightTime ≤ (now - s.startTime) / 1000 ∨
          (1 / 1000 < (now - s.startTime) / 1000 ∧
            heightAtP (podParamsOf s) ((now - s.startTime) / 1000) ≤ s.initialHeight + 1 / 100 ∧
            velocityAtP (podParamsOf s) ((now - s.startTime) / 1000) ≤ 0)))) ∧
    (∀ (s : PodState) (now : ℚ), s.isRunning = true →
      ¬(s.flightTime ≤ (now - s.startTime) / 1000 ∨
          (1 / 1000 < (now - s.startTime) / 1000 ∧
            heightAtP (podParamsOf s) ((now - s.startTime) / 1000) ≤ s.initialHeight + 1 / 100 ∧
            velocityAtP (podParamsOf s) ((now - s.startTime) / 1000) ≤ 0)) →
      (animate s now).isRunning = true ∧ (animate s now).animationId = true ∧
        (animate s now).currentHeight =
          heightAtP (podParamsOf s) ((now - s.startTime) / 1000)) := by
  refine ⟨?_, ?_, ?_, ?_⟩
  · intro s now hs
    simp only [animateG, hs, if_true]
    split_ifs with hc
    · simp only [endSimulationG]
      exact iff_of_true trivial hc
    · exact iff_of_false (by simp) hc
  · intro s now hs hc
    simp only [animateG, hs, if_true]
    rw [if_pos hc]
    rfl
  · intro s now hs
    simp only [heightAtP, velocityAtP]
    simp only [animate, hs, if_true]
    split_ifs with hc
    · simp only [endSimulation]
      exact iff_of_true trivial hc
    · exact iff_of_false (by simp) hc
  · intro s now hs hc
    simp only [heightAtP, velocityAtP] at hc ⊢
    simp only [animate, hs, if_true]
    rw [if_neg hc]
    exact ⟨rfl, rfl, rfl⟩

/-- Witness for C2 at concrete running states of the two variants. -/
theorem C2_tick_transition_amended_wit :
    ((animateG ⟨true, false, 0, 0, 0, 0, 0, 0, 1/2, 3, 5/2, 25, 0⟩ 1).isRunning = false ↔
      (((1 : ℝ)/2) ≤ ((1 : ℝ) - 0) / 1000 ∨
        (1 / 1000 < ((1 : ℝ) - 0) / 1000 ∧
          (calculatePositionG (gParamsOf ⟨true, false, 0, 0, 0, 0, 0, 0, 1/2, 3, 5/2, 25, 0⟩)
            (((1 : ℝ) - 0) / 1000)).height ≤ 1 / 100))) ∧
    ((animate ⟨true, false, 0, 0, 5/2, 5/2, 1/2, 3, 5/2, 5/2⟩ 1).isRunning = false ↔
      (((1 : ℚ)/2) ≤ ((1 : ℚ) - 0) / 1000 ∨
        (1 / 1000 < ((1 : ℚ) - 0) / 1000 ∧
          heightAtP (podParamsOf ⟨true, false, 0, 0, 5/2, 5/2, 1/2, 3, 5/2, 5/2⟩)
            (((1 : ℚ) - 0) / 1000) ≤ (5 : ℚ)/2 + 1 / 100 ∧
          velocityAtP (podParamsOf ⟨true, false, 0, 0, 5/2, 5/2, 1/2, 3, 5/2, 5/2⟩)
            (((1 : ℚ) - 0) / 1000) ≤ 0))) :=
  ⟨C2_tick_transition_amended.1 ⟨true, false, 0, 0, 0, 0, 0, 0, 1/2, 3, 5/2, 25, 0⟩ 1 rfl,
   C2_tick_transition_amended.2.2.1 ⟨true, false, 0, 0, 5/2, 5/2, 1/2, 3, 5/2, 5/2⟩ 1 rfl⟩

/-- Counterexample to C2 as stated: a running podium state 2 ms into a
flight from the defaults, whose sample is within `0.01` of the podium
height with elapsed time above the tolerance — so the claimed termination
condition holds — yet the tick keeps the clock Running, because the code
additionally requires the sampled velocity to be non-positive and the ball
is still ascending. -/
theorem C2_tick_transition_cex :
    (((7 : ℚ)/10) ≤ ((2 : ℚ) - 0) / 1000 ∨
      (1 / 1000 < ((2 : ℚ) - 0) / 1000 ∧
        heightAtP (podParamsOf ⟨true, false, 0, 0, 5/2, 5/2, 7/10, 3, 5/2, 5/2⟩)
          (((2 : ℚ) - 0) / 1000) ≤ (5 : ℚ)/2 + 1 / 100)) ∧
    (animate ⟨true, false, 0, 0, 5/2, 5/2, 7/10, 3, 5/2, 5/2⟩ 2).isRunning = true := by
  constructor
  · refine Or.inr ⟨by norm_num, ?_⟩
    norm_num [podParamsOf, heightAtP, calculatePosition, numSteps,
      show Int.toNat 2 = 2 from rfl, show (2 : ℕ) = 1 + 1 from rfl,
      show (1 : ℕ) = 0 + 1 from rfl, integrate, dtP]
  · norm_num [animate, podParamsOf, calculatePosition, numSteps,
      show Int.toNat 2 = 2 from rfl, show (2 : ℕ) = 1 + 1 from rfl,
      show (1 : ℕ) = 0 + 1 from rfl, integrate, dtP]

/-- C5 (amended): under allowed ranges `[0°,25°] ∪ [65°,75°]`, `setAngle`
snaps any request strictly inside the gap `(25°,65°)` to the nearest
boundary of the nearest allowed sub-range (the tie at the midpoint `45°`
resolving to `25`), clamps any request above the overall maximum to `75`,
and never silently passes an out-of-range value through **for requests
`≥ 0°`**; requests below `0°` are passed through unchanged (the handler
has no lower-bound guard). -/
theorem C5_setAngle_amended :
    (∀ a : ℚ, 25 < a → a < 65 →
      (setAngle a = 25 ∨ setAngle a = 65) ∧
      |a - setAngle a| = min (a - 25) (65 - a) ∧
      (a = 45 → setAngle a = 25)) ∧
    (∀ a : ℚ, 75 < a → setAngle a = 75) ∧
    setAngle 45 = 25 ∧ setAngle 80 = 75 ∧
    (∀ a : ℚ, 0 ≤ a → allowedAngle (setAngle a)) ∧
    (∀ a : ℚ, a < 0 → setAngle a = a) := by
  have hgap : ∀ a : ℚ, 25 < a → a < 65 → setAngle a = if a ≤ 45 then 25 else 65 := by
    intro a h1 h2
    simp [setAngle, h1, h2]
  refine ⟨?_, ?_, ?_, ?_, ?_, ?_⟩
  · intro a h1 h2
    rw [hgap a h1 h2]
    by_cases h45 : a ≤ 45
    · rw [if_pos h45]
      refine ⟨Or.inl rfl, ?_, fun _ => rfl⟩
      rw [abs_of_nonneg (by linarith), min_eq_left (by linarith)]
    · rw [if_neg h45]
      push_neg at h45
      refine ⟨Or.inr rfl, ?_, fun h => absurd h (by intro h; rw [h] at h45; linarith)⟩
      rw [abs_of_nonpos (by linarith), min_eq_right (by linarith)]
      ring
  · intro a h
    have h1 : ¬(25 < a ∧ a < 65) := by rintro ⟨_, h2⟩; linarith
    simp [setAngle, h1, h]
  · have := hgap 45 (by norm_num) (by norm_num)
    rw [this, if_pos (by norm_num)]
  · have h1 : ¬((25 : ℚ) < 80 ∧ (80 : ℚ) < 65) := by rintro ⟨_, h⟩; linarith
    have h2 : (75 : ℚ) < 80 := by norm_num
    simp [setAngle, h1, h2]
  · intro a ha
    unfold setAngle
    split_ifs with h1 h2 h3
    · exact Or.inl ⟨by norm_num, le_refl 25⟩
    · exact Or.inr ⟨le_refl 65, by norm_num⟩
    · exact Or.inr ⟨by norm_num, le_refl 75⟩
    · push_neg at h1 h3
      rcases le_or_lt a 25 with h25 | h25
      · exact Or.inl ⟨ha, h25⟩
      · exact Or.inr ⟨h1 h25, h3⟩
  · intro a ha
    have h1 : ¬(25 < a ∧ a < 65) := by rintro ⟨h, _⟩; linarith
    have h2 : ¬(75 : ℚ) < a := by linarith
    simp [setAngle, h1, h2]

/-- Witness for C5 at concrete requests. -/
theorem C5_setAngle_amended_wit :
    ((setAngle 30 = 25 ∨ setAngle 30 = 65) ∧
      |(30 : ℚ) - setAngle 30| = min ((30 : ℚ) - 25) (65 - 30) ∧
      ((30 : ℚ) = 45 → setAngle 30 = 25)) ∧
    setAngle 80 = 75 ∧ allowedAngle (setAngle 10) ∧ setAngle (-1) = -1 :=
  ⟨C5_setAngle_amended.1 30 (by norm_num) (by norm_num),
   C5_setAngle_amended.2.1 80 (by norm_num),
   C5_setAngle_amended.2.2.2.2.1 10 (by norm_num),
   C5_setAngle_amended.2.2.2.2.2 (-1) (by norm_num)⟩

/-- Counterexample to C5 as stated: the request `-5°` lies outside the
allowed ranges, yet `setAngle` passes it through silently — the accepted
value is an out-of-range value, contrary to the claim's final clause. -/
theorem C5_setAngle_cex : setAngle (-5) = -5 ∧ ¬ allowedAngle (-5) := by
  constructor
  · have h1 : ¬((25 : ℚ) < -5 ∧ (-5 : ℚ) < 65) := by rintro ⟨h, _⟩; linarith
    have h2 : ¬(75 : ℚ) < -5 := by norm_num
    simp [setAngle, h1, h2]
  · rintro (⟨h, _⟩ | ⟨h, _⟩) <;> norm_num at h

/-- The landing search is insensitive to any fuel budget that covers the
`t < 200` ceiling of the loop: the loop always exits within the ceiling. -/
lemma landingSearch_stable (p : PodParams) :
    ∀ f1 f2 k : Nat, 2000 ≤ k + f1 → 2000 ≤ k + f2 →
      landingSearch p f1 k = landingSearch p f2 k := by
  intro f1
  induction f1 with
  | zero =>
    intro f2 k h1 h2
    have hkn : (2000 : ℕ) ≤ k := by omega
    have hk : (2000 : ℚ) ≤ (k : ℚ) := by exact_mod_cast hkn
    have hg : ¬((k : ℚ) / 10 < 200) := by
      rw [not_lt, le_div_iff₀ (by norm_num : (0 : ℚ) < 10)]
      linarith
    cases f2 with
    | zero => rfl
    | succ f2 => simp only [landingSearch]; rw [if_neg hg]
  | succ f1 ih =>
    intro f2 k h1 h2
    cases f2 with
    | zero =>
      have hkn : (2000 : ℕ) ≤ k := by omega
      have hk : (2000 : ℚ) ≤ (k : ℚ) := by exact_mod_cast hkn
      have hg : ¬((k : ℚ) / 10 < 200) := by
        rw [not_lt, le_div_iff₀ (by norm_num : (0 : ℚ) < 10)]
        linarith
      simp only [landingSearch]; rw [if_neg hg]
    | succ f2 =>
      simp only [landingSearch]
      by_cases hg : (k : ℚ) / 10 < 200
      · rw [if_pos hg, if_pos hg]
        by_cases hc : landCondP p k
        · rw [if_pos hc, if_pos hc]
        · rw [if_neg hc, if_neg hc]
          exact ih f2 (k + 1) (by omega) (by omega)
      · rw [if_neg hg, if_neg hg]

/-- The peak search is insensitive to any fuel budget that covers the
`t < 100` ceiling of the loop. -/
lemma peakSearch_stable (p : PodParams) :
    ∀ f1 f2 k : Nat, ∀ acc : ℚ, 10000 ≤ k + f1 → 10000 ≤ k + f2 →
      peakSearch p f1 k acc = peakSearch p f2 k acc := by
  intro f1
  induction f1 with
  | zero =>
    intro f2 k acc h1 h2
    have hkn : (10000 : ℕ) ≤ k := by omega
    have hk : (10000 : ℚ) ≤ (k : ℚ) := by exact_mod_cast hkn
    have hg : ¬((k : ℚ) / 100 < 100) := by
      rw [not_lt, le_div_iff₀ (by norm_num : (0 : ℚ) < 100)]
      linarith
    cases f2 with
    | zero => rfl
    | succ f2 => simp only [peakSearch]; rw [if_neg hg]
  | succ f1 ih =>
    intro f2 k acc h1 h2
    cases f2 with
    | zero =>
      have hkn : (10000 : ℕ) ≤ k := by omega
      have hk : (10000 : ℚ) ≤ (k : ℚ) := by exact_mod_cast hkn
      have hg : ¬((k : ℚ) / 100 < 100) := by
        rw [not_lt, le_div_iff₀ (by norm_num : (0 : ℚ) < 100)]
        linarith
      simp only [peakSearch]; rw [if_neg hg]
    | succ f2 =>
      simp only [peakSearch]
      by_cases hg : (k : ℚ) / 100 < 100
      · rw [if_pos hg, if_pos hg]
        by_cases hc : peakCondP p k
        · rw [if_pos hc, if_pos hc]
        · rw [if_neg hc, if_neg hc]
          exact ih f2 (k + 1) _ (by omega) (by omega)
      · rw [if_neg hg, if_neg hg]

/-- If no grid point below the `t < 200` ceiling satisfies the landing
test, the landing search falls through to its initialisation `0` (the
loop never evaluates the test at or beyond the ceiling). -/
lemma landingSearch_not_found (p : PodParams)
    (hnone : ∀ k : Nat, k < 2000 → ¬ landCondP p k) :
    ∀ f k : Nat, landingSearch p f k = 0 := by
  intro f
  induction f with
  | zero => intro k; rfl
  | succ f ih =>
    intro k
    simp only [landingSearch]
    by_cases hg : (k : ℚ) / 10 < 200
    · have hkq : (k : ℚ) < 2000 := by
        rw [div_lt_iff₀ (by norm_num : (0 : ℚ) < 10)] at hg
        linarith
      have hk : k < 2000 := by exact_mod_cast hkq
      rw [if_pos hg, if_neg (hnone k hk)]
      exact ih (k + 1)
    · rw [if_neg hg]

/-- Launched upwards fast enough to outlast `n` sub-steps (gravity is at
most `7/5` at non-negative heights, so each 1 ms sub-step costs at most
`7/5000` of velocity), the podium integrator never drops below its start
height within those sub-steps. -/
lemma integrate_ge_of_fast (n : Nat) :
    ∀ h v : ℚ, 0 ≤ h → 7 / 5000 * (n : ℚ) ≤ v →
      h ≤ (integrate n h v).1 ∧ v - 7 / 5000 * (n : ℚ) ≤ (integrate n h v).2 := by
  induction n with
  | zero =>
    intro h v hh hv
    refine ⟨le_rfl, ?_⟩
    show v - 7 / 5000 * ((0 : ℕ) : ℚ) ≤ v
    push_cast
    linarith
  | succ n ih =>
    intro h v hh hv
    have hcast : ((n + 1 : ℕ) : ℚ) = (n : ℚ) + 1 := by push_cast; ring
    rw [hcast] at hv ⊢
    have hn0 : (0 : ℚ) ≤ (n : ℚ) := Nat.cast_nonneg n
    have hgd : 7 / (h + 5) * dtP ≤ 7 / 5000 := by
      have hdivle : (7 : ℚ) / (h + 5) ≤ 7 / 5 := by
        rw [div_le_div_iff (by linarith) (by norm_num)]
        linarith
      calc 7 / (h + 5) * dtP ≤ 7 / 5 * dtP :=
            mul_le_mul_of_nonneg_right hdivle (by norm_num [dtP])
        _ = 7 / 5000 := by norm_num [dtP]
    have hv2nn : 0 ≤ v - 7 / (h + 5) * dtP := by linarith
    simp only [integrate]
    split_ifs with hc
    · have hm : 0 ≤ (v - 7 / (h + 5) * dtP) * dtP :=
        mul_nonneg hv2nn (by norm_num [dtP])
      constructor
      · show h ≤ (0 : ℚ)
        linarith
      · show v - 7 / 5000 * ((n : ℚ) + 1) ≤ (0 : ℚ)
        have hv2le : (v - 7 / (h + 5) * dtP) * dtP ≤ 0 := by linarith
        have hv2z : v - 7 / (h + 5) * dtP ≤ 0 := by
          by_contra hpos
          push_neg at hpos
          nlinarith [mul_pos hpos (show (0 : ℚ) < dtP by norm_num [dtP])]
        linarith
    · have hv2 : 7 / 5000 * (n : ℚ) ≤ v - 7 / (h + 5) * dtP := by linarith
      have hh2 : 0 ≤ h + (v - 7 / (h + 5) * dtP) * dtP := (lt_of_not_le hc).le
      obtain ⟨ih1, ih2⟩ := ih _ _ hh2 hv2
      constructor
      · refine le_trans ?_ ih1
        have hm : 0 ≤ (v - 7 / (h + 5) * dtP) * dtP :=
          mul_nonneg hv2nn (by norm_num [dtP])
        linarith
      · linarith

/-- C6: the variable-gravity flight-envelope estimation terminates for
every parameter set: both the peak search and the landing search are
bounded loops over a fixed time ceiling with a fixed coarse step (their
result does not depend on any fuel budget covering the ceiling), and when
the landing condition is never met at any grid point within the ceiling,
the fallback value `100` is used as the flight duration instead of
looping forever. -/
theorem C6_estimation_bounded :
    (∀ (p : PodParams) (f : Nat), landingSearch p (2000 + f) 0 = landingSearch p 2000 0) ∧
    (∀ (p : PodParams) (f : Nat) (acc : ℚ),
      peakSearch p (10000 + f) 0 acc = peakSearch p 10000 0 acc) ∧
    (∀ p : PodParams, (∀ k : Nat, k < 2000 → ¬ landCondP p k) → flightTimeOf p = 100) := by
  refine ⟨?_, ?_, ?_⟩
  · intro p f
    exact landingSearch_stable p (2000 + f) 2000 0 (by omega) (by omega)
  · intro p f acc
    exact peakSearch_stable p (10000 + f) 10000 0 acc (by omega) (by omega)
  · intro p h
    simp only [flightTimeOf]
    rw [landingSearch_not_found p h 2000 0]
    norm_num

/-- Witness for C6 at the pathological valid parameters the fallback is
for: a ground launch at `10⁶ m/s` is still far above the landing band at
every grid point below the 200 s ceiling (its height after the first
sub-step is about `1000` and cannot decrease by more than gravity allows
within the ceiling), so the landing search finds nothing and the fallback
duration `100` is returned. -/
theorem C6_estimation_bounded_wit :
    landingSearch ⟨0, 1000000⟩ 2001 0 = landingSearch ⟨0, 1000000⟩ 2000 0 ∧
    peakSearch ⟨0, 1000000⟩ 10001 0 0 = peakSearch ⟨0, 1000000⟩ 10000 0 0 ∧
    flightTimeOf ⟨0, 1000000⟩ = 100 := by
  refine ⟨C6_estimation_bounded.1 ⟨0, 1000000⟩ 1, C6_estimation_bounded.2.1 ⟨0, 1000000⟩ 1 0,
    C6_estimation_bounded.2.2 ⟨0, 1000000⟩ ?_⟩
  intro k hk2000 hland
  simp only [landCondP] at hland
  obtain ⟨hk1, hk2⟩ := hland
  norm_num at hk2
  have hne : ((k : ℚ) / 10) ≠ 0 := ne_of_gt (by linarith)
  have hk2n : 2 ≤ k := by
    have hkq : (1 : ℚ) < (k : ℚ) := by linarith
    have : 1 < k := by exact_mod_cast hkq
    omega
  have hsteps : numSteps ((k : ℚ) / 10) = 100 * k := by
    unfold numSteps
    rw [show ((k : ℚ) / 10) * 1000 = ((100 * k : ℕ) : ℚ) from by push_cast; ring,
      Int.ceil_natCast]
    exact Int.toNat_natCast _
  have h100k : 100 * k = (100 * k - 1) + 1 := by omega
  have hmle : ((100 * k - 1 : ℕ) : ℚ) ≤ 199999 := by
    have hle : 100 * k - 1 ≤ 199999 := by omega
    exact_mod_cast hle
  have hstep1 : integrate ((100 * k - 1) + 1) 0 1000000 =
      integrate (100 * k - 1) (4999999993/5000000) (4999999993/5000) := by
    simp only [integrate, dtP]
    norm_num
  have hv1 : 7 / 5000 * ((100 * k - 1 : ℕ) : ℚ) ≤ 4999999993/5000 := by linarith
  have hlow := (integrate_ge_of_fast (100 * k - 1) (4999999993/5000000) (4999999993/5000)
    (by norm_num) hv1).1
  have hpos : (1 : ℚ) / 100 < heightAtP ⟨0, 1000000⟩ ((k : ℚ) / 10) := by
    show (1 : ℚ) / 100 <
      (calculatePosition ⟨0, 1000000⟩ ((k : ℚ) / 10)).1
    unfold calculatePosition
    rw [if_neg hne]
    show (1 : ℚ) / 100 < max 0 (integrate (numSteps ((k : ℚ) / 10)) 0 1000000).1
    rw [hsteps, h100k, hstep1]
    have hchain : (4999999993 : ℚ)/5000000 ≤
        max 0 ((integrate (100 * k - 1) (4999999993/5000000) (4999999993/5000)).1) :=
      le_trans hlow (le_max_right 0 _)
    linarith
  linarith

/-- Starting at rest (or falling) from a non-negative height, the podium
integrator never rises above its start height and never regains positive
velocity. -/
lemma integrate_le_of_nonpos (n : Nat) :
    ∀ h v : ℚ, 0 ≤ h → v ≤ 0 → (integrate n h v).1 ≤ h ∧ (integrate n h v).2 ≤ 0 := by
  induction n with
  | zero => intro h v hh hv; exact ⟨le_rfl, hv⟩
  | succ n ih =>
    intro h v hh hv
    have hg : (0 : ℚ) < 7 / (h + 5) := div_pos (by norm_num) (by linarith)
    have hstep : (0 : ℚ) < 7 / (h + 5) * dtP := mul_pos hg (by norm_num [dtP])
    simp only [integrate]
    split_ifs with hc
    · exact ⟨hh, le_rfl⟩
    · have hv2 : v - 7 / (h + 5) * dtP ≤ 0 := by linarith
      have h2pos : (0 : ℚ) < h + (v - 7 / (h + 5) * dtP) * dtP := lt_of_not_le hc
      obtain ⟨ih1, ih2⟩ := ih _ _ h2pos.le hv2
      refine ⟨le_trans ih1 ?_, ih2⟩
      have hmul : (v - 7 / (h + 5) * dtP) * dtP ≤ 0 :=
        mul_nonpos_of_nonpos_of_nonneg hv2 (by norm_num [dtP])
      linarith

/-- Starting at rest (or falling) from a strictly positive height, at
least one integration sub-step strictly lowers the podium sample. -/
lemma integrate_lt_of_nonpos (n : Nat) (h v : ℚ) (hh : 0 < h) (hv : v ≤ 0) :
    (integrate (n + 1) h v).1 < h := by
  have hg : (0 : ℚ) < 7 / (h + 5) := div_pos (by norm_num) (by linarith)
  have hstep : (0 : ℚ) < 7 / (h + 5) * dtP := mul_pos hg (by norm_num [dtP])
  simp only [integrate]
  split_ifs with hc
  · exact hh
  · have hv2 : v - 7 / (h + 5) * dtP ≤ 0 := by linarith
    have h2pos : (0 : ℚ) < h + (v - 7 / (h + 5) * dtP) * dtP := lt_of_not_le hc
    have hb := (integrate_le_of_nonpos n _ _ h2pos.le hv2).1
    have hmul : (v - 7 / (h + 5) * dtP) * dtP < 0 :=
      mul_neg_of_neg_of_pos (by linarith) (by norm_num [dtP])
    linarith

/-- C4 (amended): in the ground-launch (angled constant-gravity) variant,
for every valid parameter set (speed `≥ 0`, angle within `[0°, 75°]`) and
every `t` at or past the estimated flight duration, the sampled height is
exactly `0`.  (The podium-return half of the original claim is dropped:
the variable-gravity model clamps only at the ground, not at
`initialHeight`, so its sampled height is not constant past the estimated
duration — see the counterexample.) -/
theorem C4_past_duration_amended :
    ∀ v0 ang t : ℝ, 0 ≤ v0 → 0 ≤ ang → ang ≤ 75 →
      (calculateMaxHeightG ⟨v0, ang, 0⟩).2 ≤ t →
      (calculatePositionG ⟨v0, ang, 0⟩ t).height = 0 := by
  intro v0 ang t hv0 ha1 ha2 hft
  have hpi := Real.pi_pos
  have hrad1 : 0 ≤ degToRad ang := by
    unfold degToRad
    positivity
  have hrad2 : degToRad ang ≤ Real.pi := by
    unfold degToRad
    rw [div_le_iff₀ (by norm_num : (0 : ℝ) < 180)]
    nlinarith
  have hsin : 0 ≤ Real.sin (degToRad ang) :=
    Real.sin_nonneg_of_nonneg_of_le_pi hrad1 hrad2
  have hy : 0 ≤ v0yOf ⟨v0, ang, 0⟩ := mul_nonneg hv0 hsin
  have hft2 : (calculateMaxHeightG ⟨v0, ang, 0⟩).2 =
      max (if 1 / 1000 < |v0yOf ⟨v0, ang, 0⟩| then 2 * |v0yOf ⟨v0, ang, 0⟩| / 7 else 1 / 10)
        (1 / 10) := by
    simp [calculateMaxHeightG]
  rw [hft2, abs_of_nonneg hy] at hft
  have ht10 : (1 / 10 : ℝ) ≤ t := le_trans (le_max_right _ _) hft
  have hquad : (0 : ℝ) + v0yOf ⟨v0, ang, 0⟩ * t - 1 / 2 * 7 * t ^ 2 ≤ 0 := by
    by_cases habs : (1 / 1000 : ℝ) < v0yOf ⟨v0, ang, 0⟩
    · rw [if_pos habs] at hft
      have h27 : 2 * v0yOf ⟨v0, ang, 0⟩ / 7 ≤ t := le_trans (le_max_left _ _) hft
      nlinarith
    · rw [if_neg habs] at hft
      push_neg at habs
      nlinarith
  show max 0 ((⟨v0, ang, 0⟩ : GParams).initialHeight + v0yOf ⟨v0, ang, 0⟩ * t -
      1 / 2 * 7 * t ^ 2) = 0
  have h00 : (⟨v0, ang, 0⟩ : GParams).initialHeight = 0 := rfl
  rw [h00]
  exact max_eq_left (by linarith)

/-- Witness for C4 at concrete inputs (angle `0°`, so the estimated
duration is the `0.1` floor). -/
theorem C4_past_duration_amended_wit :
    (calculatePositionG ⟨5/2, 0, 0⟩ 1).height = 0 := by
  refine C4_past_duration_amended (5/2) 0 1 (by norm_num) le_rfl (by norm_num) ?_
  norm_num [calculateMaxHeightG, v0yOf, degToRad]

/-- Counterexample to C4 as stated, in the podium-return variant: from a
rest start on the podium (`initialHeight = 2.5`, `initialVelocity = 0`)
the estimated flight duration is the grid point `0.2`, but the sample at
`t = 0.3 ≥ 0.2` has height strictly below `initialHeight = 2.5` (the
integrator keeps falling towards the ground), so the model's height is
not constant at `initialHeight` past its own estimated duration. -/
theorem C4_past_duration_cex :
    flightTimeOf ⟨5/2, 0⟩ = 1/5 ∧ ((1 : ℚ)/5 ≤ 3/10) ∧
      heightAtP ⟨5/2, 0⟩ (3/10) ≠ 5/2 := by
  have hbound : heightAtP ⟨5/2, 0⟩ (1/5) ≤ 5/2 := by
    unfold heightAtP calculatePosition
    rw [if_neg (by norm_num : (1/5 : ℚ) ≠ 0)]
    have hb := (integrate_le_of_nonpos (numSteps (1/5)) (5/2) 0 (by norm_num) le_rfl).1
    exact max_le (by norm_num) hb
  have hland2 : landCondP ⟨5/2, 0⟩ 2 := by
    constructor
    · norm_num
    · have h2 : (((2 : ℕ) : ℚ)) / 10 = 1/5 := by norm_num
      rw [h2]
      have hh : (⟨5/2, 0⟩ : PodParams).initialHeight = 5/2 := rfl
      rw [hh]
      linarith
  have hnot0 : ¬ landCondP ⟨5/2, 0⟩ 0 := by
    rintro ⟨h, _⟩
    norm_num at h
  have hnot1 : ¬ landCondP ⟨5/2, 0⟩ 1 := by
    rintro ⟨h, _⟩
    norm_num at h
  have hstep : ∀ f k : Nat, landingSearch ⟨5/2, 0⟩ (f + 1) k =
      if (k : ℚ) / 10 < 200 then
        (if landCondP ⟨5/2, 0⟩ k then ((k : ℚ) / 10) else landingSearch ⟨5/2, 0⟩ f (k + 1))
      else 0 := fun f k => rfl
  have hsearch : landingSearch ⟨5/2, 0⟩ 2000 0 = 1/5 := by
    rw [show (2000 : ℕ) = 1999 + 1 from rfl, hstep 1999 0,
      if_pos (by norm_num : ((0 : ℕ) : ℚ) / 10 < 200), if_neg hnot0,
      show (0 : ℕ) + 1 = 1 from rfl,
      show (1999 : ℕ) = 1998 + 1 from rfl, hstep 1998 1,
      if_pos (by norm_num : ((1 : ℕ) : ℚ) / 10 < 200), if_neg hnot1,
      show (1 : ℕ) + 1 = 2 from rfl,
      show (1998 : ℕ) = 1997 + 1 from rfl, hstep 1997 2,
      if_pos (by norm_num : ((2 : ℕ) : ℚ) / 10 < 200), if_pos hland2]
    norm_num
  refine ⟨?_, by norm_num, ?_⟩
  · simp only [flightTimeOf, hsearch]
    norm_num
  · unfold heightAtP calculatePosition
    rw [if_neg (by norm_num : (3/10 : ℚ) ≠ 0)]
    have hsteps : numSteps (3/10) = 299 + 1 := by
      norm_num [numSteps, show Int.toNat 300 = 300 from rfl]
    rw [hsteps]
    have hlt := integrate_lt_of_nonpos 299 (5/2) 0 (by norm_num) le_rfl
    have hmax : max 0 ((integrate (299 + 1) (5/2) 0).1) < 5/2 := max_lt (by norm_num) hlt
    exact ne_of_lt hmax

/-- Numeric bounds on `sin 25°`, via the quartic remainder bound on the
cubic Taylor polynomial of `sin` and the `d6` bounds on `π`. -/
lemma sin25_bounds :
    (4205 / 10000 : ℝ) < Real.sin (degToRad 25) ∧
      Real.sin (degToRad 25) < 4244 / 10000 := by
  have hpi1 := Real.pi_gt_d6
  have hpi2 := Real.pi_lt_d6
  have hxr : degToRad 25 = 25 * Real.pi / 180 := rfl
  rw [hxr]
  set x : ℝ := 25 * Real.pi / 180 with hxdef
  have hx1 : (436332 / 1000000 : ℝ) < x := by rw [hxdef]; linarith
  have hx2 : x < 4363324 / 10000000 := by rw [hxdef]; linarith
  have hx0 : (0 : ℝ) < x := by linarith
  have habs : |x| ≤ 1 := by rw [abs_of_pos hx0]; linarith
  have hb := Real.sin_bound habs
  rw [abs_of_pos hx0] at hb
  obtain ⟨hbl, hbu⟩ := abs_le.1 hb
  have p2 : x ^ 2 < 190386 / 1000000 := by nlinarith
  have p3 : x ^ 3 < 830720 / 10000000 := by nlinarith
  have p4 : x ^ 4 < 3624710 / 100000000 := by nlinarith
  have q2 : (190385 / 1000000 : ℝ) < x ^ 2 := by nlinarith
  have q3 : (830710 / 10000000 : ℝ) < x ^ 3 := by nlinarith
  constructor
  · linarith
  · linarith

/-- Unfolding of the elevated-launch branch of `calculateMaxHeightG`. -/
lemma calcMHG_snd_elevated (v0 ang h0 : ℝ) (hh0 : h0 ≠ 0)
    (hd : 0 ≤ (v0yOf ⟨v0, ang, h0⟩) ^ 2 - 4 * (-(1/2) * 7) * h0) :
    (calculateMaxHeightG ⟨v0, ang, h0⟩).2 =
      max (max ((-(v0yOf ⟨v0, ang, h0⟩) +
            Real.sqrt ((v0yOf ⟨v0, ang, h0⟩) ^ 2 - 4 * (-(1/2) * 7) * h0)) / (2 * (-(1/2) * 7)))
          ((-(v0yOf ⟨v0, ang, h0⟩) -
            Real.sqrt ((v0yOf ⟨v0, ang, h0⟩) ^ 2 - 4 * (-(1/2) * 7) * h0)) / (2 * (-(1/2) * 7))))
        (1/10) := by
  simp only [calculateMaxHeightG]
  rw [if_neg hh0, if_pos hd]

/-- The peak estimate of `calculateMaxHeightG` is the closed form
`h0 + v0y²/(2g)`. -/
lemma calcMHG_fst (v0 ang h0 : ℝ) :
    (calculateMaxHeightG ⟨v0, ang, h0⟩).1 =
      h0 + (v0 * Real.sin (degToRad ang)) ^ 2 / (2 * 7) := by
  simp [calculateMaxHeightG, v0yOf]

/-- The ground-launch flight duration of `calculateMaxHeightG` is
`2·|v0y|/g` floored at `0.1`. -/
lemma calcMHG_snd_ground (v0 ang : ℝ) :
    (calculateMaxHeightG ⟨v0, ang, 0⟩).2 =
      max (1/10) (2 * |v0 * Real.sin (degToRad ang)| / 7) := by
  simp only [calculateMaxHeightG]
  rw [if_pos trivial]
  by_cases habs : (1/1000 : ℝ) < |v0yOf ⟨v0, ang, 0⟩|
  · rw [if_pos habs, max_comm]
    rfl
  · rw [if_neg habs]
    push_neg at habs
    have habs2 : |v0yOf ⟨v0, ang, 0⟩| = |v0 * Real.sin (degToRad ang)| := rfl
    rw [habs2] at habs
    have h710 : 2 * |v0 * Real.sin (degToRad ang)| / 7 ≤ (1 : ℝ)/10 := by linarith
    rw [max_eq_left h710]
    exact max_self ((1 : ℝ)/10)

/-- C3 (amended): the constant-gravity `FlightEnvelopeEstimator` computes
`peakHeight = h0 + v0y²/(2·7)` with `v0y = v0·sin(angle)`; for a ground
launch (`h0 = 0`) the flight duration is `2·|v0y|/7` **floored at `0.1`**
(the floor applies always, not only when `v0y` is near zero); for an
elevated launch (`h0 > 0`) it is the largest non-negative root of
`h0 + v0y·t - ½·7·t² = 0`, again **floored at `0.1`**; and for
`v0 = 2.5`, `angle = 25°` it yields `peakHeight ≈ 0.0786` and
`flightDuration ≈ 0.302` (both within `0.002`). -/
theorem C3_envelope_amended :
    (∀ v0 ang : ℝ, (calculateMaxHeightG ⟨v0, ang, 0⟩).2 =
      max (1/10) (2 * |v0 * Real.sin (degToRad ang)| / 7)) ∧
    (∀ v0 ang h0 : ℝ, (calculateMaxHeightG ⟨v0, ang, h0⟩).1 =
      h0 + (v0 * Real.sin (degToRad ang)) ^ 2 / (2 * 7)) ∧
    (∀ v0 ang h0 : ℝ, 0 < h0 →
      (calculateMaxHeightG ⟨v0, ang, h0⟩).2 =
        max (1/10) (largestRoot (v0 * Real.sin (degToRad ang)) h0) ∧
      0 ≤ largestRoot (v0 * Real.sin (degToRad ang)) h0 ∧
      h0 + (v0 * Real.sin (degToRad ang)) * largestRoot (v0 * Real.sin (degToRad ang)) h0 -
        1/2 * 7 * largestRoot (v0 * Real.sin (degToRad ang)) h0 ^ 2 = 0 ∧
      (∀ u : ℝ, h0 + (v0 * Real.sin (degToRad ang)) * u - 1/2 * 7 * u ^ 2 = 0 →
        u ≤ largestRoot (v0 * Real.sin (degToRad ang)) h0)) ∧
    (|(calculateMaxHeightG ⟨5/2, 25, 0⟩).1 - 786/10000| < 2/1000 ∧
      |(calculateMaxHeightG ⟨5/2, 25, 0⟩).2 - 302/1000| < 2/1000) := by
  refine ⟨calcMHG_snd_ground, calcMHG_fst, ?_, ?_⟩
  · intro v0 ang h0 hh0
    set y := v0 * Real.sin (degToRad ang) with hydef
    have hyv : v0yOf ⟨v0, ang, h0⟩ = y := rfl
    have hd0 : (0 : ℝ) ≤ y ^ 2 + 14 * h0 := by nlinarith [sq_nonneg y]
    have hd0x : 0 ≤ (v0yOf ⟨v0, ang, h0⟩) ^ 2 - 4 * (-(1/2) * 7) * h0 := by
      rw [hyv]
      nlinarith [sq_nonneg y]
    have hunf := calcMHG_snd_elevated v0 ang h0 (ne_of_gt hh0) hd0x
    rw [hyv, show y ^ 2 - 4 * (-(1/2) * 7) * h0 = y ^ 2 + 14 * h0 from by ring] at hunf
    have hs2 : Real.sqrt (y ^ 2 + 14 * h0) ^ 2 = y ^ 2 + 14 * h0 := Real.sq_sqrt hd0
    have hsnn : 0 ≤ Real.sqrt (y ^ 2 + 14 * h0) := Real.sqrt_nonneg _
    have habs_le : |y| ≤ Real.sqrt (y ^ 2 + 14 * h0) := by
      rw [← Real.sqrt_sq_eq_abs]
      exact Real.sqrt_le_sqrt (by nlinarith)
    have hlr : largestRoot y h0 = (y + Real.sqrt (y ^ 2 + 14 * h0)) / 7 := rfl
    have hr0 : 0 ≤ largestRoot y h0 := by
      rw [hlr]
      have h1 := neg_abs_le y
      linarith
    have ht1 : (-y + Real.sqrt (y ^ 2 + 14 * h0)) / (2 * (-(1/2) * 7)) =
        (y - Real.sqrt (y ^ 2 + 14 * h0)) / 7 := by ring
    have ht2 : (-y - Real.sqrt (y ^ 2 + 14 * h0)) / (2 * (-(1/2) * 7)) =
        (y + Real.sqrt (y ^ 2 + 14 * h0)) / 7 := by ring
    rw [ht1, ht2] at hunf
    have hmax : max ((y - Real.sqrt (y ^ 2 + 14 * h0)) / 7)
        ((y + Real.sqrt (y ^ 2 + 14 * h0)) / 7) =
        (y + Real.sqrt (y ^ 2 + 14 * h0)) / 7 := max_eq_right (by linarith)
    rw [hmax] at hunf
    refine ⟨by rw [hunf, hlr, max_comm], hr0, ?_, ?_⟩
    · rw [hlr]
      linear_combination (-1/14 : ℝ) * hs2
    · intro u hu
      rw [hlr]
      by_contra hgt
      push_neg at hgt
      have h1 : Real.sqrt (y ^ 2 + 14 * h0) < 7 * u - y := by linarith
      nlinarith [hs2, hsnn, hu, h1]
  · obtain ⟨hs1, hs2⟩ := sin25_bounds
    constructor
    · rw [calcMHG_fst, abs_lt]
      constructor <;> nlinarith
    · rw [calcMHG_snd_ground]
      have hpos : (0 : ℝ) < 5/2 * Real.sin (degToRad 25) := by nlinarith
      rw [abs_of_pos hpos]
      have hmax : max ((1 : ℝ)/10) (2 * (5/2 * Real.sin (degToRad 25)) / 7) =
          2 * (5/2 * Real.sin (degToRad 25)) / 7 := max_eq_right (by nlinarith)
      rw [hmax, abs_lt]
      constructor <;> nlinarith

/-- Witness for C3: the elevated-launch characterisation at
`v0 = 2.5`, `angle = 25°`, `h0 = 2.5`. -/
theorem C3_envelope_amended_wit :
    (calculateMaxHeightG ⟨5/2, 25, 5/2⟩).2 =
      max (1/10) (largestRoot ((5 : ℝ)/2 * Real.sin (degToRad 25)) (5/2)) ∧
    0 ≤ largestRoot ((5 : ℝ)/2 * Real.sin (degToRad 25)) (5/2) ∧
    (5 : ℝ)/2 + ((5 : ℝ)/2 * Real.sin (degToRad 25)) *
        largestRoot ((5 : ℝ)/2 * Real.sin (degToRad 25)) (5/2) -
      1/2 * 7 * largestRoot ((5 : ℝ)/2 * Real.sin (degToRad 25)) (5/2) ^ 2 = 0 ∧
    (∀ u : ℝ, (5 : ℝ)/2 + ((5 : ℝ)/2 * Real.sin (degToRad 25)) * u - 1/2 * 7 * u ^ 2 = 0 →
      u ≤ largestRoot ((5 : ℝ)/2 * Real.sin (degToRad 25)) (5/2)) :=
  C3_envelope_amended.2.2.1 (5/2) 25 (5/2) (by norm_num)

/-- Counterexample to C3 as stated: for the elevated launch
`v0 = 2.5`, `angle = 0°`, `h0 = 0.001` the discriminant is positive, yet
the computed flight duration is the floor `0.1`, which is not even a root
of the landing quadratic (the largest root is `√0.014/7 ≈ 0.017 < 0.1`) —
so the flight duration is not the largest non-negative root, contrary to
the claim's elevated-launch clause. -/
theorem C3_envelope_cex :
    (calculateMaxHeightG ⟨5/2, 0, 1/1000⟩).2 = 1/10 ∧
    ((1 : ℝ)/1000 + v0yOf ⟨5/2, 0, 1/1000⟩ * (1/10) - 1/2 * 7 * ((1 : ℝ)/10) ^ 2 ≠ 0) := by
  have hy : v0yOf ⟨5/2, 0, 1/1000⟩ = 0 := by
    simp [v0yOf, degToRad]
  constructor
  · have hd0x : (0 : ℝ) ≤ (v0yOf ⟨5/2, 0, 1/1000⟩) ^ 2 - 4 * (-(1/2) * 7) * (1/1000) := by
      rw [hy]
      norm_num
    have hunf := calcMHG_snd_elevated (5/2) 0 (1/1000) (by norm_num) hd0x
    rw [hy, show (0 : ℝ) ^ 2 - 4 * (-(1/2) * 7) * (1/1000) = 7/500 from by norm_num] at hunf
    have hsnn := Real.sqrt_nonneg (7/500 : ℝ)
    have hsq : Real.sqrt (7/500) ≤ 7/10 := by
      rw [show (7/10 : ℝ) = Real.sqrt ((7/10) ^ 2) from (Real.sqrt_sq (by norm_num)).symm]
      exact Real.sqrt_le_sqrt (by norm_num)
    have ht1 : (-(0 : ℝ) + Real.sqrt (7/500)) / (2 * (-(1/2) * 7)) =
        -(Real.sqrt (7/500)) / 7 := by ring
    have ht2 : (-(0 : ℝ) - Real.sqrt (7/500)) / (2 * (-(1/2) * 7)) =
        Real.sqrt (7/500) / 7 := by ring
    rw [ht1, ht2] at hunf
    have hmax1 : max (-(Real.sqrt (7/500)) / 7) (Real.sqrt (7/500) / 7) =
        Real.sqrt (7/500) / 7 := max_eq_right (by linarith)
    rw [hmax1] at hunf
    rw [hunf]
    exact max_eq_right (by linarith)
  · rw [hy]
    norm_num

end DoingPhysics
